import Mathlib

/-!
Verification development for the `Bot` class of `bot.py` (imas765probot).

The bot keeps three database tables:
  * a queue table of rows `(filepath, comment, timestamp)` — pending posts,
  * a recent-queue table of rows `(filepath, timestamp)` — recently posted files,
  * a request-sent table of rows `(id, screen_name, timestamp)` — follow requests sent.

We embed the tables as Lean lists of tuples and each method of the class as a
pure function.  External effects (S3 downloads, the Twitter API, the random
shuffle, the wall clock) are passed in as explicit oracle parameters:
  * a shuffle is an arbitrary function together with the hypothesis that it
    permutes its argument (`random.shuffle` permutes the list in place),
  * a download or API call is a function from the request to the outcome the
    backend produced,
  * `datetime.datetime.now()` is an explicit integer timestamp argument.

Side effects on the tables are returned as new table values; the order of the
externally visible database operations performed by `tweet` is additionally
recorded as a trace of `Event`s.
-/

/-- A row of the queue table: `(filepath, comment, timestamp)`.
`smart_queue` inserts `comment = None`; timestamps come from `datetime.now()`. -/
structure QRow where
  filepath : String
  comment : Option String
  ts : Int
deriving DecidableEq, Repr

/-- A row of the recent-queue table: `(filepath, timestamp)`. -/
abbrev RRow := String × Int

/-- A row of the request-sent table: `(id, screen_name, timestamp)`. -/
abbrev SRow := String × String × Int

/-- `count_rows`: `SELECT count(*) FROM table`. -/
def count_rows (l : List α) : Nat := l.length

/-- `delete_row table 'filepath' fp`: `DELETE FROM table WHERE filepath = fp`.
SQL deletes every row whose `filepath` equals `fp`. -/
def delete_row (q : List QRow) (fp : String) : List QRow :=
  q.filter (fun r => decide (r.filepath ≠ fp))

/-- `get_newest_row`: `SELECT * FROM table ORDER BY timestamp DESC LIMIT 1`,
then `fetchone()` — `none` on an empty table, otherwise a row carrying the
maximal timestamp. -/
def get_newest_row (q : List QRow) : Option QRow :=
  q.foldl (fun acc r =>
    match acc with
    | none => some r
    | some a => if r.ts > a.ts then some r else acc) none

/-- `delete_oldest_row table 'timestamp'`:
`DELETE FROM table WHERE timestamp IN (SELECT timestamp FROM table ORDER BY timestamp ASC LIMIT 1)`.
The subselect yields the minimal timestamp; the outer DELETE removes every row
carrying it.  On an empty table nothing is deleted. -/
def delete_oldest_row (l : List RRow) : List RRow :=
  match (l.map (fun r => r.2)).min? with
  | none => l
  | some m => l.filter (fun r => decide (r.2 ≠ m))

/-- `insert_recent entry`: INSERT a `(filepath, timestamp)` row, stamped with
the current time. -/
def insert_recent (l : List RRow) (fp : String) (now : Int) : List RRow :=
  l ++ [(fp, now)]

/-- `get_recent_timestamp`: `SELECT timestamp FROM table ORDER BY timestamp DESC
LIMIT 1`; if `fetchone()` is `None` (empty table) the epoch
(`datetime.utcfromtimestamp(0)`, modelled as `0`) is returned, otherwise the
maximal timestamp of the table. -/
def get_recent_timestamp (l : List RRow) : Int :=
  match (l.map (fun r => r.2)).max? with
  | none => 0
  | some t => t

/-- `get_time_since_last_tweet`: `datetime.now() - get_recent_timestamp(...)`,
as seconds. -/
def get_time_since_last_tweet (now : Int) (recent : List RRow) : Int :=
  now - get_recent_timestamp recent

/-- `can_tweet`: `tweet_enabled and count_rows(queue_table) > 0 and
get_time_since_last_tweet() > tweet_timeout`. -/
def can_tweet (tweet_enabled : Bool) (tweet_timeout : Int)
    (queue : List QRow) (recent : List RRow) (now : Int) : Bool :=
  tweet_enabled && decide (count_rows queue > 0)
    && decide (get_time_since_last_tweet now recent > tweet_timeout)

/-- `CanPublish` as the spec states it, for the refinement comparison with
`can_tweet`: true iff publishing is enabled AND the queue has at least one
entry AND `now - last_published_at > tweet_timeout`, where `last_published_at`
is the newest `RecentEntry` timestamp, or the epoch when none exists. -/
def canPublishSpec (enabled : Bool) (timeout : Int)
    (queue : List QRow) (recent : List RRow) (now : Int) : Prop :=
  enabled = true ∧ queue ≠ [] ∧
    now - (match (recent.map (fun r => r.2)).max? with
           | none => 0
           | some t => t) > timeout

/-- `smart_queue`, the queue-construction algorithm, as the list `new_queue`
it builds.  `recent_queue` is the filepath column of the recent-queue table,
`file_pool` the live S3 listing (keys not ending in `/`).  `shuffle1` and
`shuffle2` stand for the two `random.shuffle` calls; theorems assume they
permute their argument.

The Python loop `for i in range(end): new_queue.append(temp.pop())` moves the
last `end` elements of the shuffled `temp`, in reverse order, to the front of
`new_queue`; the remaining prefix of `temp` is merged with `temp2`, shuffled
again, and appended.

The subsequent INSERT loop walks `new_queue` in reverse (`new_queue[::-1]`)
stamping each row with the then-current time, so the head of `new_queue` ends
up as the newest-timestamped row of the table — the first row consumed by
`get_newest_row`.  We therefore take `new_queue` itself, head first, as the
consumption order of the built queue. -/
def smart_queue (recent_queue file_pool : List String) (recent_limit : Nat)
    (shuffle1 shuffle2 : List String → List String) : List String :=
  let temp := file_pool.filter (fun r => decide (r ∉ recent_queue))
  let temp2 := file_pool.filter (fun r => decide (r ∈ recent_queue))
  let t := shuffle1 temp
  let e := if t.length < recent_limit then t.length else recent_limit
  let front := (t.drop (t.length - e)).reverse
  let rest := shuffle2 (t.take (t.length - e) ++ temp2)
  front ++ rest

/-- One object of an S3 listing, as `smart_queue` reads it: its `Key`. -/
structure S3Object where
  key : String
deriving DecidableEq, Repr

/-- The part of the boto3 `list_objects` response that `smart_queue` reads.
boto3 omits the `Contents` key entirely when the listing matches no objects,
so the field is `none` exactly when the pool is empty. -/
structure ListObjectsResponse where
  contents : Option (List S3Object)
deriving DecidableEq, Repr

/-- `smart_queue` from the raw `list_objects` response, covering the pool
extraction `file_pool = [file['Key'] for file in response['Contents'] if not
file['Key'].endswith('/')]`.  Subscripting a response without a `Contents`
key raises an uncaught `KeyError`, modelled as `none`; otherwise the
comprehension builds the pool listing and the queue is constructed as in
`smart_queue`. -/
def smart_queue_from_response (recent_queue : List String)
    (response : ListObjectsResponse) (recent_limit : Nat)
    (shuffle1 shuffle2 : List String → List String) : Option (List String) :=
  match response.contents with
  | none => none
  | some objects =>
    let file_pool :=
      (objects.filter (fun file => !(file.key.endsWith "/"))).map (fun file => file.key)
    some (smart_queue recent_queue file_pool recent_limit shuffle1 shuffle2)

/-- Outcome of one candidate in the `download_latest` loop: the local-file
check plus the `download_file` call.
  * `local_exists`  — `os.path.isfile(temp_file)` was true, short-circuit,
  * `ok`            — the S3 download succeeded,
  * `folder_missing`— `FileNotFoundError`,
  * `not_found`     — `botocore.exceptions.ClientError` (not in the bucket),
  * `is_dir`        — `IsADirectoryError`. -/
inductive FetchResult
  | local_exists
  | ok
  | folder_missing
  | not_found
  | is_dir
deriving DecidableEq, Repr

/-- Outcome of one attempt of the `tweet_media` loop.
  * `success` — `media_upload` and `update_status` both succeeded,
  * `tweepErr status hasHandle` — a `tweepy.error.TweepError` was raised;
    `status` is `error.response.status_code` (`none` when `error.response is
    None`, a transport-level failure); `hasHandle` records whether `ids` was
    already non-empty, i.e. whether `media_upload` had returned a media id,
  * `typeErr` — a `TypeError` (upload returned an unsubscriptable object). -/
inductive Outcome
  | success
  | tweepErr (status : Option Nat) (hasHandle : Bool)
  | typeErr
deriving DecidableEq, Repr

/-- Whether the `tweet_media` loop executes `continue` (performs another
attempt) after the given outcome.  Reading the handler: a raised error with
status 429 never retries; statuses 500, 503 and every other status retry
exactly when `ids` is still empty; the same for a transport error with no
response; success and `TypeError` fall through to the final `break`. -/
def tweet_media_retries (o : Outcome) : Bool :=
  match o with
  | .success => false
  | .typeErr => false
  | .tweepErr status hasHandle =>
    match status with
    | some 429 => false
    | some _ => !hasHandle
    | none => !hasHandle

/-- Did this attempt create a post?  Exactly the `update_status` calls that
returned without raising do. -/
def posts_created (o : Outcome) : Bool :=
  match o with
  | .success => true
  | _ => false

/-- The attempts `for attempt in range(max_tweet_attempts)` of `tweet_media`
actually performs, as the list of their outcomes: `oracle i` is what attempt
`i` does; the loop continues past an attempt iff `tweet_media_retries` holds
of its outcome, and runs out after `fuel` iterations. -/
def tweet_media_run (oracle : Nat → Outcome) : Nat → Nat → List Outcome
  | _, 0 => []
  | i, fuel + 1 =>
    let o := oracle i
    if tweet_media_retries o then o :: tweet_media_run oracle (i + 1) fuel else [o]

/-- Externally visible database operations of the publish pipeline, in
execution order.  `enqueue` is never emitted by the pipeline; it is the event
an insertion into the queue table would produce. -/
inductive Event
  | delete_queue_row (fp : String)
  | publish_attempt (o : Outcome)
  | insert_recent_ev (fp : String)
  | delete_oldest_ev
  | enqueue (fp : String)
deriving DecidableEq, Repr

/-- `download_latest`.  Each iteration reads the newest queue row and consults
`fetch` on its filepath.  `row = get_newest_row(...)` is subscripted
unguarded (`row[0]`), so an empty queue raises a `TypeError`: the outer
`none` models that fault.  Otherwise the result is
`(returned entry?, queue table after, trace of queue deletions)`:
`local_exists`/`ok` return the entry; `folder_missing` and `not_found` delete
the row and continue; `is_dir` deletes the row and breaks, after which the
loop's fall-through returns `None`; an exhausted loop returns `None`. -/
def download_latest (fetch : String → FetchResult) :
    Nat → List QRow → Option (Option QRow × List QRow × List Event)
  | 0, queue => some (none, queue, [])
  | fuel + 1, queue =>
    match get_newest_row queue with
    | none => none
    | some row =>
      match fetch row.filepath with
      | .local_exists => some (some row, queue, [])
      | .ok => some (some row, queue, [])
      | .folder_missing =>
        match download_latest fetch fuel (delete_row queue row.filepath) with
        | none => none
        | some (res, q2, ev) => some (res, q2, .delete_queue_row row.filepath :: ev)
      | .not_found =>
        match download_latest fetch fuel (delete_row queue row.filepath) with
        | none => none
        | some (res, q2, ev) => some (res, q2, .delete_queue_row row.filepath :: ev)
      | .is_dir =>
        some (none, delete_row queue row.filepath, [.delete_queue_row row.filepath])

/-- The recent-table eviction loop of `tweet`:
`for i in range(n): delete_oldest_row(...)`. -/
def evict_oldest : Nat → List RRow → List RRow
  | 0, l => l
  | n + 1, l => evict_oldest n (delete_oldest_row l)

/-- `tweet`, the top-level publish cycle, over the queue and recent tables.
`fetch` and `oracle` are the S3 and Twitter backends, `now` the timestamp
`insert_recent` stamps.  Returns the new tables and the trace of database
operations, or `none` when `download_latest` faulted.

Faithful order of operations when a download succeeds: `delete_row` on the
consumed filepath, then the `tweet_media` attempt loop, then `insert_recent`,
then `count_rows` and the eviction loop (`row_count - recent_limit` calls of
`delete_oldest_row` when `row_count > recent_limit`). -/
def tweet (max_download_attempts max_tweet_attempts recent_limit : Nat)
    (fetch : String → FetchResult) (oracle : Nat → Outcome) (now : Int)
    (queue : List QRow) (recent : List RRow) :
    Option ((List QRow × List RRow) × List Event) :=
  match download_latest fetch max_download_attempts queue with
  | none => none
  | some (none, q, ev) => some ((q, recent), ev)
  | some (some row, q, ev) =>
    let q2 := delete_row q row.filepath
    let run := tweet_media_run oracle 0 max_tweet_attempts
    let recent2 := insert_recent recent row.filepath now
    let row_count := count_rows recent2
    let evictions := if row_count > recent_limit then row_count - recent_limit else 0
    let recent3 := evict_oldest evictions recent2
    some ((q2, recent3),
      ev ++ Event.delete_queue_row row.filepath ::
        (run.map Event.publish_attempt ++ Event.insert_recent_ev row.filepath ::
          List.replicate evictions Event.delete_oldest_ev))

/-- A follower object returned by the Twitter API: `id_str` and
`screen_name`. -/
structure Follower where
  id : String
  name : String
deriving DecidableEq, Repr

/-- `request_sent id`: `SELECT id FROM request_sent_table WHERE id = id`;
true iff `fetchone()` is not `None`. -/
def request_sent (table : List SRow) (id : String) : Bool :=
  table.any (fun r => r.1 == id)

/-- `update_request_sent id screen_name`: INSERT an `(id, screen_name,
timestamp)` row stamped with the current time. -/
def update_request_sent (table : List SRow) (id name : String) (now : Int) :
    List SRow :=
  table ++ [(id, name, now)]

/-- Outcome of one `follower.follow()` call in `follow_back`:
  * `ok` — the request was sent,
  * `err status` — a `tweepy.error.TweepError` with
    `status = error.response.status_code`, or `none` when `error.response is
    None` (such an error falls through the handler untouched). -/
inductive FollowOutcome
  | ok
  | err (status : Option Nat)
deriving DecidableEq, Repr

/-- Whether the `follow_back` handler records the peer in the request-sent
table for this outcome: on success, and on a 403 (request pending, blocked or
suspended); every other outcome records nothing. -/
def follow_recorded (o : FollowOutcome) : Bool :=
  match o with
  | .ok => true
  | .err (some code) => code == 403
  | .err none => false

/-- The per-follower loop of `follow_back` over an already retrieved follower
list: skip any follower whose id is in the request-sent table; otherwise
attempt to follow (the attempt is appended to the returned trace of attempted
ids) and record the peer exactly when `follow_recorded` holds of the
outcome. -/
def follow_back (oracle : Follower → FollowOutcome) (now : Int) :
    List Follower → List SRow → List SRow × List String
  | [], table => (table, [])
  | f :: rest, table =>
    if request_sent table f.id then
      follow_back oracle now rest table
    else
      let table2 := if follow_recorded (oracle f) then
          update_request_sent table f.id f.name now
        else table
      let r := follow_back oracle now rest table2
      (r.1, f.id :: r.2)

/-- A sequence of `follow_back` runs, each with its own retrieved follower
list, backend behaviour and clock; the attempted ids of all runs are
concatenated. -/
def follow_back_runs :
    List (List Follower × (Follower → FollowOutcome) × Int) → List SRow →
    List SRow × List String
  | [], table => (table, [])
  | (fs, oracle, now) :: rest, table =>
    let r1 := follow_back oracle now fs table
    let r2 := follow_back_runs rest r1.1
    (r2.1, r1.2 ++ r2.2)

/-- `delete_row request_sent_table 'id' id`:
`DELETE FROM request_sent_table WHERE id = id`. -/
def delete_sent_row (table : List SRow) (id : String) : List SRow :=
  table.filter (fun r => decide (r.1 ≠ id))

/-- Outcome of one `get_user` + `user.unfollow()` call in `unfollow`. -/
inductive UnfollowOutcome
  | ok
  | err (status : Option Nat)
deriving DecidableEq, Repr

/-- The per-friend loop of `unfollow` over the retrieved friend and follower
id lists: a friend who is among the followers is skipped; otherwise the
unfollow is attempted, and on success the friend's request-sent row is
deleted and the counter `not_following` is incremented, breaking out of the
loop once it reaches 180; on error nothing changes. -/
def unfollow (followers : List String) (oracle : String → UnfollowOutcome) :
    List String → List SRow → Nat → List SRow
  | [], table, _ => table
  | fr :: rest, table, cnt =>
    if fr ∈ followers then
      unfollow followers oracle rest table cnt
    else
      match oracle fr with
      | .ok =>
        let table2 := delete_sent_row table fr
        if cnt + 1 ≥ 180 then table2
        else unfollow followers oracle rest table2 (cnt + 1)
      | .err _ => unfollow followers oracle rest table cnt

/-! ### Theorems -/

/-- C5: `can_tweet` returns true iff `tweet_enabled` is set AND the queue has
at least one row AND the elapsed time since the newest recent-queue timestamp
strictly exceeds `tweet_timeout`, an empty recent-queue table counting as the
epoch; and it is false on an empty queue regardless of elapsed time. -/
theorem can_tweet_iff_canPublishSpec :
    ∀ (tweet_enabled : Bool) (tweet_timeout : Int) (queue : List QRow)
      (recent : List RRow) (now : Int),
      (can_tweet tweet_enabled tweet_timeout queue recent now = true ↔
        canPublishSpec tweet_enabled tweet_timeout queue recent now)
      ∧ can_tweet tweet_enabled tweet_timeout ([] : List QRow) recent now = false := by
  intro e t q r now
  constructor
  · simp only [can_tweet, canPublishSpec, count_rows, get_time_since_last_tweet,
      get_recent_timestamp, Bool.and_eq_true, decide_eq_true_eq]
    rw [gt_iff_lt, List.length_pos]
    tauto
  · simp [can_tweet, count_rows]

/-- The queue construction itself, handed an (already extracted) empty pool
listing, builds the empty queue: no rows are inserted. -/
theorem smart_queue_empty_pool :
    ∀ (recent_queue : List String) (recent_limit : Nat)
      (shuffle1 shuffle2 : List String → List String),
      (∀ l, (shuffle1 l).Perm l) → (∀ l, (shuffle2 l).Perm l) →
      smart_queue recent_queue [] recent_limit shuffle1 shuffle2 = [] := by
  intro R lim s1 s2 h1 h2
  have e1 : s1 [] = [] := List.Perm.eq_nil (h1 [])
  have e2 : s2 [] = [] := List.Perm.eq_nil (h2 [])
  simp [smart_queue, e1, e2]

/-- `smart_queue_empty_pool` at a concrete recency set, with the identity
shuffle. -/
theorem smart_queue_empty_pool_witness :
    smart_queue ["a"] [] 2 (fun l => l) (fun l => l) = [] :=
  smart_queue_empty_pool ["a"] 2 (fun l => l) (fun l => l)
    (fun l => List.Perm.refl l) (fun l => List.Perm.refl l)

/-- C8: running `smart_queue` against a truly empty asset pool does not
complete without error.  boto3 omits the `Contents` key from the
`list_objects` response when the listing is empty, so `response['Contents']`
raises an uncaught `KeyError` before any row is written: the run faults
(`none`) instead of building the empty queue.  (The queue construction
downstream of the extraction would have written zero rows, per
`smart_queue_empty_pool`.) -/
theorem smart_queue_empty_listing_keyerror :
    smart_queue_from_response [] ⟨none⟩ 2 (fun l => l) (fun l => l) = none := rfl

/-- The `tweet_media` attempt loop performs at most `fuel` attempts. -/
theorem tweet_media_run_length_le (oracle : Nat → Outcome) :
    ∀ fuel i, (tweet_media_run oracle i fuel).length ≤ fuel := by
  intro fuel
  induction fuel with
  | zero => intro i; simp [tweet_media_run]
  | succ n ih =>
    intro i
    simp only [tweet_media_run]
    split
    · simpa using ih (i + 1)
    · simp

/-- If the head of a list satisfies `f`, dropping the last element commutes
with the head for `List.all`. -/
theorem all_dropLast_cons (f : α → Bool) (a : α) (l : List α) (h : f a = true) :
    ((a :: l).dropLast.all f) = l.dropLast.all f := by
  cases l with
  | nil => simp
  | cons b bs => simp [List.dropLast, h]

/-- Every attempt of the `tweet_media` loop except possibly the last had an
outcome the handler retries on. -/
theorem tweet_media_run_dropLast_all (oracle : Nat → Outcome) :
    ∀ fuel i, (tweet_media_run oracle i fuel).dropLast.all tweet_media_retries = true := by
  intro fuel
  induction fuel with
  | zero => intro i; simp [tweet_media_run]
  | succ n ih =>
    intro i
    simp only [tweet_media_run]
    split
    · rw [all_dropLast_cons _ _ _ (by assumption)]
      exact ih (i + 1)
    · simp

/-- The `tweet_media` loop posts at most once: at most one performed attempt
has a `success` outcome. -/
theorem tweet_media_run_posts_le_one (oracle : Nat → Outcome) :
    ∀ fuel i, ((tweet_media_run oracle i fuel).filter posts_created).length ≤ 1 := by
  intro fuel
  induction fuel with
  | zero => intro i; simp [tweet_media_run]
  | succ n ih =>
    intro i
    simp only [tweet_media_run]
    split
    · have hnp : posts_created (oracle i) = false := by
        cases ho : oracle i <;>
          simp_all [tweet_media_retries, posts_created]
      rw [List.filter_cons_of_neg (by simp [hnp])]
      exact ih (i + 1)
    · rcases hp : posts_created (oracle i) <;>
        simp [List.filter, hp]

/-- C4: the `tweet_media` attempt loop performs at most `max_tweet_attempts`
attempts; at most one attempt creates a post; every attempt that was followed
by another one had an outcome `tweet_media_retries` accepts; and the retry
policy never retries a rate-limited (429) outcome, and never retries once a
media handle exists. -/
theorem tweet_media_retry_policy :
    ∀ (max_tweet_attempts : Nat) (oracle : Nat → Outcome),
      (tweet_media_run oracle 0 max_tweet_attempts).length ≤ max_tweet_attempts
      ∧ ((tweet_media_run oracle 0 max_tweet_attempts).filter posts_created).length ≤ 1
      ∧ (tweet_media_run oracle 0 max_tweet_attempts).dropLast.all tweet_media_retries = true
      ∧ (∀ (s : Option Nat) (hasHandle : Bool),
          tweet_media_retries (Outcome.tweepErr (some 429) hasHandle) = false
          ∧ tweet_media_retries (Outcome.tweepErr s true) = false) := by
  intro n oracle
  refine ⟨tweet_media_run_length_le oracle n 0, tweet_media_run_posts_le_one oracle n 0,
    tweet_media_run_dropLast_all oracle n 0, ?_⟩
  intro s h
  constructor
  · cases h <;> rfl
  · rcases s with _ | c
    · rfl
    · rcases c with _ | c
      · rfl
      · simp [tweet_media_retries]
        split <;> rfl

/-- C10: `download_latest` subscripts the `get_newest_row` result unguarded,
so an iteration entered with an empty queue faults (`none`) instead of
returning nil; conversely an iteration that produced a value was entered with
a non-empty queue. -/
theorem download_latest_empty_queue_faults :
    ∀ (fetch : String → FetchResult),
      (∀ fuel : Nat, 0 < fuel → download_latest fetch fuel [] = none)
      ∧ (∀ (fuel : Nat) (queue : List QRow) (r : Option QRow × List QRow × List Event),
          download_latest fetch (fuel + 1) queue = some r → queue ≠ []) := by
  intro fetch
  constructor
  · intro fuel hf
    match fuel, hf with
    | n + 1, _ => simp [download_latest, get_newest_row]
  · intro fuel queue r h hq
    subst hq
    simp [download_latest, get_newest_row] at h

/-- Witness for C10: with one download attempt an empty queue faults, and a
queue that consumed an iteration was non-empty — here the singleton table
holding `"a"`, fetched successfully. -/
theorem download_latest_empty_queue_faults_witness :
    download_latest (fun _ => FetchResult.ok) 1 [] = none
    ∧ ([⟨"a", none, 0⟩] : List QRow) ≠ [] :=
  ⟨(download_latest_empty_queue_faults (fun _ => FetchResult.ok)).1 1 (by decide),
   (download_latest_empty_queue_faults (fun _ => FetchResult.ok)).2 0
     [⟨"a", none, 0⟩] (some ⟨"a", none, 0⟩, [⟨"a", none, 0⟩], []) (by rfl)⟩

/-- A depleted queue mid-loop faults as well: two attempts on a one-row queue
whose file has vanished from the bucket delete the row and then fault. -/
theorem download_latest_depletion_fault :
    download_latest (fun _ => FetchResult.not_found) 2 [⟨"a", none, 0⟩] = none := by
  rfl

/-- C7: the error-handling branches of `download_latest`.  A not-found
(`ClientError`) outcome deletes the candidate's queue row and continues the
loop on the shrunken queue; an `IsADirectoryError` outcome deletes the row and
breaks, so `None` is returned without trying further candidates; an exhausted
attempt budget returns `None`; and a `None` download makes `tweet` leave the
recent-queue table unchanged — no `RecentEntry` row is written. -/
theorem download_latest_failure_branches :
    ∀ (fetch : String → FetchResult) (fuel : Nat) (queue : List QRow) (row : QRow)
      (max_tweet_attempts recent_limit : Nat) (oracle : Nat → Outcome) (now : Int)
      (recent : List RRow) (q : List QRow) (ev : List Event),
      (get_newest_row queue = some row → fetch row.filepath = FetchResult.not_found →
        download_latest fetch (fuel + 1) queue =
          (download_latest fetch fuel (delete_row queue row.filepath)).map
            (fun r => (r.1, r.2.1, Event.delete_queue_row row.filepath :: r.2.2)))
      ∧ (get_newest_row queue = some row → fetch row.filepath = FetchResult.is_dir →
        download_latest fetch (fuel + 1) queue =
          some (none, delete_row queue row.filepath, [Event.delete_queue_row row.filepath]))
      ∧ download_latest fetch 0 queue = some (none, queue, [])
      ∧ (download_latest fetch fuel queue = some (none, q, ev) →
          tweet fuel max_tweet_attempts recent_limit fetch oracle now queue recent =
            some ((q, recent), ev)) := by
  intro fetch fuel queue row mtw lim oracle now recent q ev
  refine ⟨?_, ?_, rfl, ?_⟩
  · intro hrow hfetch
    simp only [download_latest, hrow, hfetch]
    rcases download_latest fetch fuel (delete_row queue row.filepath) with _ | ⟨res, q2, ev'⟩
    · rfl
    · rfl
  · intro hrow hfetch
    simp [download_latest, hrow, hfetch]
  · intro h
    simp [tweet, h]

/-- Witness for C7, on the singleton queue holding `"a"`: a not-found fetch
recurses on the emptied queue; an is-a-directory fetch returns nil at once
with the row deleted; a zero budget returns nil; and `tweet` over a backend
that never finds the file leaves the (empty) recent table untouched. -/
theorem download_latest_failure_branches_witness :
    (download_latest (fun _ => FetchResult.not_found) 1 [⟨"a", none, 0⟩] =
      (download_latest (fun _ => FetchResult.not_found) 0
          (delete_row [⟨"a", none, 0⟩] "a")).map
        (fun r => (r.1, r.2.1, Event.delete_queue_row "a" :: r.2.2)))
    ∧ (download_latest (fun _ => FetchResult.is_dir) 1 [⟨"a", none, 0⟩] =
        some (none, delete_row [⟨"a", none, 0⟩] "a", [Event.delete_queue_row "a"]))
    ∧ (tweet 0 1 1 (fun _ => FetchResult.not_found) (fun _ => Outcome.success) 5
        [⟨"a", none, 0⟩] [] = some (([⟨"a", none, 0⟩], []), [])) :=
  ⟨(download_latest_failure_branches (fun _ => FetchResult.not_found) 0 [⟨"a", none, 0⟩]
      ⟨"a", none, 0⟩ 1 1 (fun _ => Outcome.success) 5 [] [] []).1 (by rfl) (by rfl),
   (download_latest_failure_branches (fun _ => FetchResult.is_dir) 0 [⟨"a", none, 0⟩]
      ⟨"a", none, 0⟩ 1 1 (fun _ => Outcome.success) 5 [] [] []).2.1 (by rfl) (by rfl),
   (download_latest_failure_branches (fun _ => FetchResult.not_found) 0 [⟨"a", none, 0⟩]
      ⟨"a", none, 0⟩ 1 1 (fun _ => Outcome.success) 5 [] [⟨"a", none, 0⟩] []).2.2.2 (by rfl)⟩

/-- `delete_oldest_row` on a non-empty table removes at least one row (every
row carrying the minimal timestamp). -/
theorem delete_oldest_row_length_lt (l : List RRow) (h : l ≠ []) :
    (delete_oldest_row l).length < l.length := by
  match l, h with
  | a :: as, _ =>
    have hm : ((a :: as).map (fun r => r.2)).min? = some ((as.map (fun r => r.2)).foldl min a.2) := by
      simp [List.min?]
    set m := (as.map (fun r => r.2)).foldl min a.2 with hmdef
    have hmem : m ∈ (a :: as).map (fun r => r.2) := List.min?_mem min_choice hm
    obtain ⟨r, hr, hr2⟩ := List.mem_map.mp hmem
    rw [delete_oldest_row, hm]
    exact List.length_filter_lt_length_iff_exists.mpr ⟨r, hr, by simp [hr2]⟩

/-- Evicting from the empty table leaves it empty. -/
theorem evict_oldest_nil : ∀ n, evict_oldest n ([] : List RRow) = [] := by
  intro n
  induction n with
  | zero => rfl
  | succ k ih => simpa [evict_oldest, delete_oldest_row] using ih

/-- `n` eviction steps shrink the table by at least `n` rows (or to empty). -/
theorem evict_oldest_length_le : ∀ (n : Nat) (l : List RRow),
    (evict_oldest n l).length ≤ l.length - n := by
  intro n
  induction n with
  | zero => intro l; simp [evict_oldest]
  | succ k ih =>
    intro l
    rcases eq_or_ne l [] with rfl | hl
    · simp [evict_oldest, delete_oldest_row, evict_oldest_nil]
    · have h1 : (delete_oldest_row l).length < l.length := delete_oldest_row_length_lt l hl
      have h2 := ih (delete_oldest_row l)
      calc (evict_oldest (k + 1) l).length = (evict_oldest k (delete_oldest_row l)).length := rfl
        _ ≤ (delete_oldest_row l).length - k := h2
        _ ≤ l.length - (k + 1) := by omega

/-- C3: a completed `tweet` call keeps the recent-queue table within
`recent_limit` rows — provided the table was within the bound before the call
(the eviction loop brings any post-insert overshoot back to the bound before
the call returns; a cycle with no downloadable entry leaves the table
untouched). -/
theorem tweet_recent_table_bounded :
    ∀ (max_download_attempts max_tweet_attempts recent_limit : Nat)
      (fetch : String → FetchResult) (oracle : Nat → Outcome) (now : Int)
      (queue : List QRow) (recent : List RRow)
      (result : (List QRow × List RRow) × List Event),
      count_rows recent ≤ recent_limit →
      tweet max_download_attempts max_tweet_attempts recent_limit fetch oracle now
        queue recent = some result →
      count_rows result.1.2 ≤ recent_limit := by
  intro mdl mtw lim fetch oracle now queue recent result hinv h
  rcases hdl : download_latest fetch mdl queue with _ | ⟨orow, q, ev⟩
  · simp [tweet, hdl] at h
  · rcases orow with _ | row
    · simp only [tweet, hdl, Option.some.injEq] at h
      rw [← h]
      exact hinv
    · simp only [tweet, hdl, Option.some.injEq] at h
      rw [← h]
      simp only [count_rows, insert_recent] at hinv ⊢
      split
      · next hgt =>
        have := evict_oldest_length_le ((recent ++ [(row.filepath, now)]).length - lim)
          (recent ++ [(row.filepath, now)])
        simp only [List.length_append, List.length_cons, List.length_nil] at *
        omega
      · next hle =>
        simp only [evict_oldest]
        simp only [List.length_append, List.length_cons, List.length_nil] at hle ⊢
        omega

/-- Witness for C3: one publish cycle over the singleton queue `"a"`, an empty
recent table and `recent_limit = 1` ends with one recent row. -/
theorem tweet_recent_table_bounded_witness :
    count_rows ([] : List RRow) ≤ 1 ∧
    count_rows ((([] : List QRow), [(("a" : String), (5 : Int))]),
        [Event.delete_queue_row "a", Event.publish_attempt Outcome.success,
         Event.insert_recent_ev "a"]).1.2 ≤ 1 :=
  ⟨by decide,
   tweet_recent_table_bounded 1 1 1 (fun _ => FetchResult.ok) (fun _ => Outcome.success) 5
     [⟨"a", none, 0⟩] []
     ((([], [("a", 5)]),
        [Event.delete_queue_row "a", Event.publish_attempt Outcome.success,
         Event.insert_recent_ev "a"]))
     (by decide) (by rfl)⟩

/-- The queue `smart_queue` builds is a permutation of the live pool listing,
whatever the two shuffles do (as long as they are shuffles). -/
theorem smart_queue_perm_file_pool
    (recent_queue file_pool : List String) (recent_limit : Nat)
    (shuffle1 shuffle2 : List String → List String)
    (h1 : ∀ l, (shuffle1 l).Perm l) (h2 : ∀ l, (shuffle2 l).Perm l) :
    (smart_queue recent_queue file_pool recent_limit shuffle1 shuffle2).Perm file_pool := by
  rw [smart_queue]
  set temp := file_pool.filter (fun r => decide (r ∉ recent_queue)) with htemp
  set temp2 := file_pool.filter (fun r => decide (r ∈ recent_queue)) with htemp2
  set t := shuffle1 temp with ht
  set e := if t.length < recent_limit then t.length else recent_limit with he
  have step1 : ((t.drop (t.length - e)).reverse ++
      shuffle2 (t.take (t.length - e) ++ temp2)).Perm
      ((t.drop (t.length - e)) ++ (t.take (t.length - e) ++ temp2)) :=
    List.Perm.append (List.reverse_perm _) (h2 _)
  have step2 : ((t.drop (t.length - e)) ++ (t.take (t.length - e) ++ temp2)).Perm
      (t ++ temp2) := by
    rw [← List.append_assoc]
    have hcomm : ((t.drop (t.length - e)) ++ t.take (t.length - e)).Perm
        ((t.take (t.length - e)) ++ t.drop (t.length - e)) := List.perm_append_comm
    have h := List.Perm.append_right temp2 hcomm
    rwa [List.take_append_drop] at h
  have step3 : (t ++ temp2).Perm (temp ++ temp2) :=
    List.Perm.append_right temp2 (h1 temp)
  have step4 : (temp ++ temp2).Perm file_pool := by
    have hcongr : temp2 = file_pool.filter (fun x => !(fun r => decide (r ∉ recent_queue)) x) := by
      rw [htemp2]
      apply List.filter_congr
      intro x _
      simp
    rw [hcongr, htemp]
    exact List.filter_append_perm _ file_pool
  exact ((step1.trans step2).trans step3).trans step4

/-- C6: every key of the queue built by `smart_queue` is a key of the live
pool listing taken during the run — recent-table keys absent from the pool
never enter the queue — and, the pool listing having distinct keys, every
pool key is inserted exactly once. -/
theorem smart_queue_keys_match_pool :
    ∀ (recent_queue file_pool : List String) (recent_limit : Nat)
      (shuffle1 shuffle2 : List String → List String),
      (∀ l, (shuffle1 l).Perm l) → (∀ l, (shuffle2 l).Perm l) →
      (∀ x ∈ smart_queue recent_queue file_pool recent_limit shuffle1 shuffle2,
        x ∈ file_pool)
      ∧ (file_pool.Nodup → ∀ x ∈ file_pool,
          (smart_queue recent_queue file_pool recent_limit shuffle1 shuffle2).count x = 1) := by
  intro R P lim s1 s2 h1 h2
  have hperm := smart_queue_perm_file_pool R P lim s1 s2 h1 h2
  constructor
  · intro x hx
    exact hperm.mem_iff.mp hx
  · intro hnd x hx
    rw [hperm.count_eq x]
    exact List.count_eq_one_of_mem hnd hx

/-- Witness for C6, with pool `["a", "b"]`, recency set `["b", "c"]` and the
identity shuffles: the stale key `"c"` is not in the built queue, and the
live key `"a"` occurs exactly once. -/
theorem smart_queue_keys_match_pool_witness :
    ("a" : String) ∈ ["a", "b"]
    ∧ (smart_queue ["b", "c"] ["a", "b"] 1 (fun l => l) (fun l => l)).count "a" = 1 :=
  ⟨(smart_queue_keys_match_pool ["b", "c"] ["a", "b"] 1 (fun l => l) (fun l => l)
      (fun l => List.Perm.refl l) (fun l => List.Perm.refl l)).1 "a" (by decide),
   (smart_queue_keys_match_pool ["b", "c"] ["a", "b"] 1 (fun l => l) (fun l => l)
      (fun l => List.Perm.refl l) (fun l => List.Perm.refl l)).2 (by decide) "a" (by decide)⟩

/-- C1: with `|recent_queue| ≤ recent_limit` and a duplicate-free pool
listing, the first `min(|pool − recent|, recent_limit)` entries of the queue
built by `smart_queue` — its front group, persisted as the newest-timestamped
rows and hence consumed first — are pairwise distinct and drawn exclusively
from the pool keys not in the recent set. -/
theorem smart_queue_front_from_fresh :
    ∀ (recent_queue file_pool : List String) (recent_limit : Nat)
      (shuffle1 shuffle2 : List String → List String),
      (∀ l, (shuffle1 l).Perm l) → (∀ l, (shuffle2 l).Perm l) →
      file_pool.Nodup → recent_queue.length ≤ recent_limit →
      ((smart_queue recent_queue file_pool recent_limit shuffle1 shuffle2).take
          (min (file_pool.filter (fun r => decide (r ∉ recent_queue))).length
            recent_limit)).Nodup
      ∧ (∀ x ∈ (smart_queue recent_queue file_pool recent_limit shuffle1 shuffle2).take
            (min (file_pool.filter (fun r => decide (r ∉ recent_queue))).length
              recent_limit),
          x ∈ file_pool ∧ x ∉ recent_queue) := by
  intro R P lim s1 s2 h1 h2 hnd hR
  simp only [smart_queue]
  set temp := P.filter (fun r => decide (r ∉ R)) with htemp
  set temp2 := P.filter (fun r => decide (r ∈ R)) with htemp2
  set t := s1 temp with ht
  set e := if t.length < lim then t.length else lim with he
  have hlen : t.length = temp.length := (h1 temp).length_eq
  have hee : e = min temp.length lim := by
    rw [he, hlen]; split <;> omega
  have hele : e ≤ t.length := by
    rw [he]; split <;> omega
  have hfront_len : ((t.drop (t.length - e)).reverse).length = min temp.length lim := by
    rw [List.length_reverse, List.length_drop, ← hee]; omega
  have htake : (((t.drop (t.length - e)).reverse) ++
      s2 (t.take (t.length - e) ++ temp2)).take (min temp.length lim) =
      (t.drop (t.length - e)).reverse := List.take_left' hfront_len
  rw [htake]
  have htnd : t.Nodup := ((h1 temp).nodup_iff).mpr (hnd.filter _)
  constructor
  · exact List.nodup_reverse.mpr (htnd.sublist (List.drop_sublist _ _))
  · intro x hx
    have hx1 : x ∈ t := List.mem_of_mem_drop (List.mem_reverse.mp hx)
    have hx2 : x ∈ temp := ((h1 temp).mem_iff).mp hx1
    have hx3 := List.mem_filter.mp hx2
    refine ⟨hx3.1, ?_⟩
    simpa using hx3.2

/-- Witness for C1 on the pool `["a", "b", "c"]` with recency set `["c"]` and
`recent_limit = 1`: the one-element front is duplicate-free, and its entry
`"b"` is a live, non-recent key. -/
theorem smart_queue_front_from_fresh_witness :
    ((smart_queue ["c"] ["a", "b", "c"] 1 (fun l => l) (fun l => l)).take
        (min ((["a", "b", "c"].filter (fun r => decide (r ∉ ["c"]))).length) 1)).Nodup
    ∧ (("b" : String) ∈ ["a", "b", "c"] ∧ ("b" : String) ∉ ["c"]) :=
  ⟨(smart_queue_front_from_fresh ["c"] ["a", "b", "c"] 1 (fun l => l) (fun l => l)
      (fun l => List.Perm.refl l) (fun l => List.Perm.refl l) (by decide) (by decide)).1,
   (smart_queue_front_from_fresh ["c"] ["a", "b", "c"] 1 (fun l => l) (fun l => l)
      (fun l => List.Perm.refl l) (fun l => List.Perm.refl l) (by decide) (by decide)).2
      "b" (by decide)⟩

/-- Every event `download_latest` emits is a queue-row deletion. -/
theorem download_latest_trace_deletions (fetch : String → FetchResult) :
    ∀ (fuel : Nat) (queue : List QRow) (r : Option QRow × List QRow × List Event),
      download_latest fetch fuel queue = some r →
      ∀ e ∈ r.2.2, ∃ fp, e = Event.delete_queue_row fp := by
  intro fuel
  induction fuel with
  | zero =>
    intro queue r h e he
    simp only [download_latest, Option.some.injEq] at h
    rw [← h] at he
    simp at he
  | succ n ih =>
    intro queue r h e he
    rw [download_latest] at h
    split at h
    · exact absurd h (by simp)
    · split at h
      · rw [← (Option.some.injEq _ _).mp h] at he; simp at he
      · rw [← (Option.some.injEq _ _).mp h] at he; simp at he
      · split at h
        · exact absurd h (by simp)
        · next r' q2 ev hrec =>
          rw [← (Option.some.injEq _ _).mp h] at he
          rcases List.mem_cons.mp he with rfl | he'
          · exact ⟨_, rfl⟩
          · exact ih _ (r', q2, ev) hrec e he'
      · split at h
        · exact absurd h (by simp)
        · next r' q2 ev hrec =>
          rw [← (Option.some.injEq _ _).mp h] at he
          rcases List.mem_cons.mp he with rfl | he'
          · exact ⟨_, rfl⟩
          · exact ih _ (r', q2, ev) hrec e he'
      · rw [← (Option.some.injEq _ _).mp h] at he
        rcases List.mem_cons.mp he with rfl | he'
        · exact ⟨_, rfl⟩
        · simp at he'

/-- C2: when `download_latest` hands `tweet` an entry, the trace of the call
is exactly: the download's own queue-row deletions, then the deletion of the
consumed entry's row, then the publish attempts, then — whatever those
attempts did — the `RecentEntry` insertion for the entry's key, then the
evictions.  So the consumed row is deleted before the publish attempt begins,
the recency row is recorded after it regardless of outcome, and no event of
the call inserts into the queue table. -/
theorem tweet_deletes_then_publishes_then_records :
    ∀ (max_download_attempts max_tweet_attempts recent_limit : Nat)
      (fetch : String → FetchResult) (oracle : Nat → Outcome) (now : Int)
      (queue : List QRow) (recent : List RRow) (row : QRow) (q : List QRow)
      (ev : List Event),
      download_latest fetch max_download_attempts queue = some (some row, q, ev) →
      (tweet max_download_attempts max_tweet_attempts recent_limit fetch oracle now
          queue recent =
        some ((delete_row q row.filepath,
            evict_oldest
              (if count_rows (insert_recent recent row.filepath now) > recent_limit
               then count_rows (insert_recent recent row.filepath now) - recent_limit
               else 0)
              (insert_recent recent row.filepath now)),
          ev ++ Event.delete_queue_row row.filepath ::
            ((tweet_media_run oracle 0 max_tweet_attempts).map Event.publish_attempt ++
              Event.insert_recent_ev row.filepath ::
                List.replicate
                  (if count_rows (insert_recent recent row.filepath now) > recent_limit
                   then count_rows (insert_recent recent row.filepath now) - recent_limit
                   else 0)
                  Event.delete_oldest_ev)))
      ∧ (∀ e ∈ ev, ∃ fp, e = Event.delete_queue_row fp)
      ∧ (∀ fp', Event.enqueue fp' ∉
          ev ++ Event.delete_queue_row row.filepath ::
            ((tweet_media_run oracle 0 max_tweet_attempts).map Event.publish_attempt ++
              Event.insert_recent_ev row.filepath ::
                List.replicate
                  (if count_rows (insert_recent recent row.filepath now) > recent_limit
                   then count_rows (insert_recent recent row.filepath now) - recent_limit
                   else 0)
                  Event.delete_oldest_ev)) := by
  intro mdl mtw lim fetch oracle now queue recent row q ev h
  refine ⟨by simp [tweet, h], download_latest_trace_deletions fetch mdl queue _ h, ?_⟩
  intro fp' hmem
  simp only [List.mem_append, List.mem_cons, List.mem_map, List.mem_replicate] at hmem
  rcases hmem with hev | hd | ⟨⟨o, _, ho⟩ | hi | ⟨_, hrep⟩⟩
  · obtain ⟨fp, hfp⟩ := download_latest_trace_deletions fetch mdl queue _ h _ hev
    exact Event.noConfusion hfp
  · exact Event.noConfusion hd
  · exact Event.noConfusion ho
  · exact Event.noConfusion hi
  · exact Event.noConfusion hrep

/-- Witness for C2: one full cycle over the singleton queue `"a"`, with a
successful download and a successful publish. -/
theorem tweet_deletes_then_publishes_then_records_witness :
    tweet 1 1 1 (fun _ => FetchResult.ok) (fun _ => Outcome.success) 5
        [⟨"a", none, 0⟩] [] =
      some ((([] : List QRow), [(("a" : String), (5 : Int))]),
        [Event.delete_queue_row "a", Event.publish_attempt Outcome.success,
         Event.insert_recent_ev "a"]) := by
  have h := (tweet_deletes_then_publishes_then_records 1 1 1 (fun _ => FetchResult.ok)
    (fun _ => Outcome.success) 5 [⟨"a", none, 0⟩] [] ⟨"a", none, 0⟩ [⟨"a", none, 0⟩] []
    (by rfl)).1
  exact h

/-- An insertion into the request-sent table preserves existing records. -/
theorem request_sent_update_preserved (table : List SRow) (id id2 name : String)
    (now : Int) (h : request_sent table id = true) :
    request_sent (update_request_sent table id2 name now) id = true := by
  simp only [request_sent, update_request_sent, List.any_append, Bool.or_eq_true]
  exact Or.inl h

/-- `follow_back` only ever inserts into the request-sent table: a live
record survives the run. -/
theorem follow_back_preserves_sent (oracle : Follower → FollowOutcome) (now : Int) :
    ∀ (fs : List Follower) (table : List SRow) (id : String),
      request_sent table id = true →
      request_sent (follow_back oracle now fs table).1 id = true := by
  intro fs
  induction fs with
  | nil => intro table id h; simpa [follow_back] using h
  | cons f rest ih =>
    intro table id h
    simp only [follow_back]
    split
    · exact ih table id h
    · rcases hrec : follow_recorded (oracle f) with _ | _
      · simp only [hrec, Bool.false_eq_true, if_false]
        exact ih table id h
      · simp only [hrec, if_true]
        exact ih _ id (request_sent_update_preserved table id f.id f.name now h)

/-- A peer with a live request-sent record is not a follow target within one
`follow_back` run. -/
theorem follow_back_no_attempt_when_sent (oracle : Follower → FollowOutcome) (now : Int) :
    ∀ (fs : List Follower) (table : List SRow) (id : String),
      request_sent table id = true →
      id ∉ (follow_back oracle now fs table).2 := by
  intro fs
  induction fs with
  | nil => intro table id h; simp [follow_back]
  | cons f rest ih =>
    intro table id h
    simp only [follow_back]
    split
    · exact ih table id h
    · next hskip =>
      intro hmem
      rcases List.mem_cons.mp hmem with rfl | hmem'
      · exact hskip h
      · rcases hrec : follow_recorded (oracle f) with _ | _
        · rw [hrec] at hmem'
          simp only [Bool.false_eq_true, if_false] at hmem'
          exact ih table id h hmem'
        · rw [hrec] at hmem'
          simp only [if_true] at hmem'
          exact ih _ id (request_sent_update_preserved table id f.id f.name now h) hmem'

/-- Across any sequence of `follow_back` runs, a peer with a live record at
the start is never a follow target. -/
theorem follow_back_runs_no_attempt :
    ∀ (runs : List (List Follower × (Follower → FollowOutcome) × Int))
      (table : List SRow) (id : String),
      request_sent table id = true →
      id ∉ (follow_back_runs runs table).2 := by
  intro runs
  induction runs with
  | nil => intro table id h; simp [follow_back_runs]
  | cons run rest ih =>
    intro table id h
    obtain ⟨fs, oracle, now⟩ := run
    simp only [follow_back_runs]
    intro hmem
    rcases List.mem_append.mp hmem with h1 | h2
    · exact follow_back_no_attempt_when_sent oracle now fs table id h h1
    · exact ih _ id (follow_back_preserves_sent oracle now fs table id h) h2

/-- Deleting a peer's request-sent rows removes its record. -/
theorem delete_sent_row_removes (table : List SRow) (id : String) :
    request_sent (delete_sent_row table id) id = false := by
  simp only [request_sent, delete_sent_row, List.any_eq_false]
  intro r hr
  have := (List.mem_filter.mp hr).2
  simp only [decide_eq_true_eq] at this
  simp [this]

/-- `unfollow` only ever deletes from the request-sent table: it creates no
new record. -/
theorem unfollow_no_new_record (followers : List String)
    (oracle : String → UnfollowOutcome) :
    ∀ (friends : List String) (table : List SRow) (cnt : Nat) (id : String),
      request_sent table id = false →
      request_sent (unfollow followers oracle friends table cnt) id = false := by
  intro friends
  induction friends with
  | nil => intro table cnt id h; simpa [unfollow] using h
  | cons fr rest ih =>
    intro table cnt id h
    simp only [unfollow]
    split
    · exact ih table cnt id h
    · rcases horc : oracle fr with _ | s
      · have hdel : request_sent (delete_sent_row table fr) id = false := by
          simp only [request_sent, delete_sent_row, List.any_eq_false] at h ⊢
          intro r hr
          exact h r (List.mem_filter.mp hr).1
        simp only [horc]
        split
        · exact hdel
        · exact ih _ _ id hdel
      · simp only [horc]
        exact ih table cnt id h

/-- C9: a peer with a live request-sent record is never the target of a new
follow attempt across any sequence of `follow_back` runs; a single attempted
follower is recorded exactly when `follow_recorded` accepts the outcome;
`follow_recorded` accepts precisely success and the forbidden (403) signal —
never rate-limited (429), another status, or a transport error; and an
`unfollow` cycle that successfully unfollows a peer ends with the peer's
record deleted. -/
theorem follow_request_dedup_policy :
    ∀ (runs : List (List Follower × (Follower → FollowOutcome) × Int))
      (table : List SRow) (id : String),
      (request_sent table id = true → id ∉ (follow_back_runs runs table).2)
      ∧ (∀ (oracle : Follower → FollowOutcome) (now : Int) (f : Follower),
          request_sent table f.id = false →
          follow_back oracle now [f] table =
            ((if follow_recorded (oracle f) then
                update_request_sent table f.id f.name now
              else table), [f.id]))
      ∧ (follow_recorded FollowOutcome.ok = true
          ∧ follow_recorded (FollowOutcome.err (some 403)) = true
          ∧ follow_recorded (FollowOutcome.err (some 429)) = false
          ∧ follow_recorded (FollowOutcome.err none) = false
          ∧ ∀ code : Nat, code ≠ 403 →
              follow_recorded (FollowOutcome.err (some code)) = false)
      ∧ (∀ (followers : List String) (unfollow_oracle : String → UnfollowOutcome)
          (friends : List String) (cnt : Nat) (fr : String),
          fr ∉ followers → unfollow_oracle fr = UnfollowOutcome.ok →
          request_sent (unfollow followers unfollow_oracle (fr :: friends) table cnt)
            fr = false) := by
  intro runs table id
  refine ⟨follow_back_runs_no_attempt runs table id, ?_, ?_, ?_⟩
  · intro oracle now f h
    simp [follow_back, h]
  · refine ⟨rfl, rfl, rfl, rfl, ?_⟩
    intro code hc
    simp only [follow_recorded]
    simpa using hc
  · intro followers unfollow_oracle friends cnt fr hnin horc
    simp only [unfollow, if_neg hnin, horc]
    have hdel := delete_sent_row_removes table fr
    split
    · exact hdel
    · exact unfollow_no_new_record followers unfollow_oracle friends
        (delete_sent_row table fr) (cnt + 1) fr hdel

/-- Witness for C9: the peer `"1"`, already recorded, is not attempted in a
subsequent run over a follower list containing it; a fresh peer `"2"` is
attempted and recorded on success; the 429 outcome records nothing; and a
successful unfollow of `"1"` deletes its record. -/
theorem follow_request_dedup_policy_witness :
    ("1" ∉ (follow_back_runs [([⟨"1", "x"⟩], fun _ => FollowOutcome.ok, 0)]
        [("1", "x", 0)]).2)
    ∧ (follow_back (fun _ => FollowOutcome.ok) 7 [⟨"2", "y"⟩] [("1", "x", 0)] =
        (([("1", "x", 0), ("2", "y", 7)] : List SRow), ["2"]))
    ∧ follow_recorded (FollowOutcome.err (some 429)) = false
    ∧ request_sent (unfollow ["3"] (fun _ => UnfollowOutcome.ok) ["1"]
        [("1", "x", 0)] 0) "1" = false :=
  ⟨(follow_request_dedup_policy [([⟨"1", "x"⟩], fun _ => FollowOutcome.ok, 0)]
      [("1", "x", 0)] "1").1 (by decide),
   (follow_request_dedup_policy [] [("1", "x", 0)] "1").2.1
      (fun _ => FollowOutcome.ok) 7 ⟨"2", "y"⟩ (by decide),
   (follow_request_dedup_policy [] [] "1").2.2.1.2.2.1,
   (follow_request_dedup_policy [] [("1", "x", 0)] "1").2.2.2 ["3"]
      (fun _ => UnfollowOutcome.ok) [] 0 "1" (by decide) (by rfl)⟩
